import Mathlib

/-!
Shallow embedding of the price-oracle client of the 1776CASH online wallet
(`oracle.js`: class `Oracle`, constants, module singleton `cOracle`) and of
the `AsyncInterval` scheduler.

JS `Map<string, Currency>` is embedded as an insertion-ordered association
list: `set` overwrites in place when the key exists and appends otherwise,
`get` returns the first (unique) binding.  Network effects are made explicit:
each operation takes the outcome the `fetch` call would produce as an
argument, and reports in its result whether the fetch was performed at all.
`debugWarn` diagnostics are accumulated in a log list inside the state.
-/

/-- A Currency record: `{ currency, value, last_updated }`. -/
structure Currency where
  currency : String
  value : Int
  last_updated : Int
deriving Repr, DecidableEq

/-- The currencies cache, embedding the JS `Map<string, Currency>`. -/
abbrev CurrencyMap := List (String × Currency)

/-- `Map.prototype.has`. -/
def mapHas : CurrencyMap → String → Bool
  | [], _ => false
  | p :: rest, k => p.1 = k || mapHas rest k

/-- `Map.prototype.get` (as an `Option` instead of `undefined`); bindings
have unique keys, so first match is the match. -/
def mapGet : CurrencyMap → String → Option Currency
  | [], _ => none
  | p :: rest, k => if p.1 = k then some p.2 else mapGet rest k

/-- `Map.prototype.set`: overwrite in place (keeping insertion position) when
the key exists, append otherwise. -/
def mapSet : CurrencyMap → String → Currency → CurrencyMap
  | [], k, v => [(k, v)]
  | p :: rest, k, v => if p.1 = k then (k, v) :: rest else p :: mapSet rest k v

/-- `ORACLE_ENABLED` (source line 22): the oracle is not deployed yet. -/
def ORACLE_ENABLED : Bool := false

/-- `ORACLE_RETRY_LIMIT` (source line 23). -/
def ORACLE_RETRY_LIMIT : Nat := 3

/-- `FALLBACK_CURRENCIES` (source line 24). -/
def FALLBACK_CURRENCIES : List String := ["usd", "eur", "gbp", "btc"]

/-- The mutable fields of an `Oracle` instance, plus the accumulated
`debugWarn` diagnostics. -/
structure OracleState where
  mapCurrencies : CurrencyMap
  fLoadedCurrencies : Bool
  nOracleFailures : Nat
  fOracleDisabled : Bool
  log : List String
deriving Repr, DecidableEq

/-- `Oracle.#ensureFallbackCurrencies` (source lines 59-70): seed each
fallback currency at value 0, timestamp `now`, only when absent. -/
def ensureFallbackCurrencies (now : Int) (s : OracleState) : OracleState :=
  let m2 := FALLBACK_CURRENCIES.foldl
    (fun m currency =>
      if mapHas m currency then m
      else mapSet m currency
        { currency := currency, value := 0, last_updated := now })
    s.mapCurrencies
  { s with mapCurrencies := m2 }

/-- `Oracle.#disableOracle` (source lines 72-78). -/
def disableOracle (now : Int) (reason : String) (s : OracleState) : OracleState :=
  if s.fOracleDisabled then s
  else
    let s1 := { s with fOracleDisabled := true }
    let s2 := ensureFallbackCurrencies now s1
    { s2 with fLoadedCurrencies := true,
              log := s2.log ++ ["Oracle disabled: " ++ reason] }

/-- The diagnostic emitted by `#markOracleFailure`. -/
def failureLogMsg (n : Nat) (reason : String) : String :=
  "Oracle request failed (" ++ toString n ++ "/" ++
    toString ORACLE_RETRY_LIMIT ++ "): " ++ reason

/-- `Oracle.#markOracleFailure` (source lines 80-89): increment the counter,
log, and disable when the counter reaches `ORACLE_RETRY_LIMIT`. -/
def markOracleFailure (now : Int) (reason : String) (s : OracleState) : OracleState :=
  let n := s.nOracleFailures + 1
  let s1 := { s with nOracleFailures := n, log := s.log ++ [failureLogMsg n reason] }
  if ORACLE_RETRY_LIMIT ≤ n then disableOracle now reason s1 else s1

/-- `Oracle.#markOracleSuccess` (source lines 55-57). -/
def markOracleSuccess (s : OracleState) : OracleState :=
  { s with nOracleFailures := 0 }

/-- The `Oracle` constructor (source lines 44-53), parametrised by the
`ORACLE_ENABLED` flag it reads. -/
def mkOracle (oracleEnabled : Bool) (now : Int) : OracleState :=
  let s : OracleState :=
    { mapCurrencies := [], fLoadedCurrencies := false,
      nOracleFailures := 0, fOracleDisabled := false, log := [] }
  if oracleEnabled then s
  else
    let s1 := { s with fOracleDisabled := true }
    let s2 := ensureFallbackCurrencies now s1
    { s2 with fLoadedCurrencies := true }

/-- `new Oracle()` as executed in this module, with `ORACLE_ENABLED = false`. -/
def oracleNew (now : Int) : OracleState := mkOracle ORACLE_ENABLED now

/-- The module-level singleton `cOracle` (source line 216). -/
def cOracle (now : Int) : OracleState := oracleNew now

/-- JS `x || 0` on a number. -/
def jsOrZero (v : Int) : Int := if v = 0 then 0 else v

/-- `Oracle.getCachedPrice` (source lines 96-98): `map.get(k)?.value || 0`. -/
def getCachedPrice (s : OracleState) (strCurrency : String) : Int :=
  match mapGet s.mapCurrencies strCurrency with
  | some c => jsOrZero c.value
  | none => 0

/-- `Oracle.getCachedCurrencies` (source lines 106-108). -/
def getCachedCurrencies (s : OracleState) : List Currency :=
  s.mapCurrencies.map Prod.snd

/-- JS `e?.message || dflt`. -/
def jsMsgOr (msg : Option String) (dflt : String) : String :=
  match msg with
  | none => dflt
  | some m => if m = "" then dflt else m

/-- What `debugWarn(topic, e)` prints for the caught error. -/
def errRepr (msg : Option String) : String :=
  match msg with
  | none => "undefined"
  | some m => m

/-- The outcome the `await fetch(...)` expression would produce: either the
promise rejects (carrying `e?.message`) or a response arrives. -/
inductive Fetched (ρ : Type) where
  | reject (msg : Option String)
  | success (r : ρ)
deriving Repr, DecidableEq

/-- A response to `GET {base}/price/{code}`: the `ok` flag, the status, and
what `cReq.json()` would yield (a parse throw, with `e?.message`, or a
`Currency` record). -/
structure PriceResponse where
  ok : Bool
  status : Nat
  json : Fetched Currency
deriving Repr, DecidableEq

/-- The JSON body of a `GET {base}/currencies` response: either not an array
at all, or an array of `Currency` records. -/
inductive CurrenciesBody where
  | notArray
  | array (l : List Currency)
deriving Repr, DecidableEq

/-- A response to `GET {base}/currencies`. -/
structure CurrenciesResponse where
  ok : Bool
  status : Nat
  json : Fetched CurrenciesBody
deriving Repr, DecidableEq

/-- Result of a `getPrice` call: the post state, the resolved number, and
whether a network fetch was performed. -/
structure PriceOutcome where
  state : OracleState
  value : Int
  fetched : Bool
deriving Repr, DecidableEq

/-- Result of a `getCurrencies` call. -/
structure CurrenciesOutcome where
  state : OracleState
  value : List Currency
  fetched : Bool
deriving Repr, DecidableEq

/-- `Oracle.getPrice` (source lines 115-150).  The `fetch` outcome is passed
in as `r`; `fetched` records whether the fetch was reached at all. -/
def getPrice (now : Int) (s : OracleState) (strCurrency : String)
    (r : Fetched PriceResponse) : PriceOutcome :=
  if s.fOracleDisabled then ⟨s, getCachedPrice s strCurrency, false⟩
  else
    match r with
    | Fetched.reject msg =>
      let s1 := { s with log := s.log ++
        ["Oracle: Failed to fetch " ++ strCurrency.toUpper ++ " price!",
         errRepr msg] }
      let s2 := markOracleFailure now (jsMsgOr msg "price fetch failed") s1
      ⟨s2, getCachedPrice s2 strCurrency, true⟩
    | Fetched.success resp =>
      if !resp.ok then
        if resp.status = 404 then
          let s1 := disableOracle now "oracle route not found (404)" s
          ⟨s1, getCachedPrice s1 strCurrency, true⟩
        else
          let s1 := markOracleFailure now
            ("HTTP " ++ toString resp.status ++ " on price") s
          ⟨s1, getCachedPrice s1 strCurrency, true⟩
      else
        match resp.json with
        | Fetched.reject msg =>
          let s1 := { s with log := s.log ++
            ["Oracle: Failed to fetch " ++ strCurrency.toUpper ++ " price!",
             errRepr msg] }
          let s2 := markOracleFailure now (jsMsgOr msg "price fetch failed") s1
          ⟨s2, getCachedPrice s2 strCurrency, true⟩
        | Fetched.success cCurrency =>
          let s1 := markOracleSuccess s
          let s2 := { s1 with
            mapCurrencies := mapSet s1.mapCurrencies strCurrency cCurrency }
          ⟨s2, cCurrency.value, true⟩

/-- `Oracle.getCurrencies` (source lines 160-198). -/
def getCurrencies (now : Int) (s : OracleState)
    (r : Fetched CurrenciesResponse) : CurrenciesOutcome :=
  if s.fOracleDisabled then ⟨s, getCachedCurrencies s, false⟩
  else
    match r with
    | Fetched.reject msg =>
      let s1 := { s with log := s.log ++
        ["Oracle: Failed to fetch currencies!", errRepr msg] }
      let s2 := markOracleFailure now (jsMsgOr msg "currencies fetch failed") s1
      ⟨s2, getCachedCurrencies s2, true⟩
    | Fetched.success resp =>
      if !resp.ok then
        if resp.status = 404 then
          let s1 := disableOracle now "oracle route not found (404)" s
          ⟨s1, getCachedCurrencies s1, true⟩
        else
          let s1 := markOracleFailure now
            ("HTTP " ++ toString resp.status ++ " on currencies") s
          ⟨s1, getCachedCurrencies s1, true⟩
      else
        match resp.json with
        | Fetched.reject msg =>
          let s1 := { s with log := s.log ++
            ["Oracle: Failed to fetch currencies!", errRepr msg] }
          let s2 := markOracleFailure now
            (jsMsgOr msg "currencies fetch failed") s1
          ⟨s2, getCachedCurrencies s2, true⟩
        | Fetched.success body =>
          match body with
          | CurrenciesBody.notArray =>
            let s1 := markOracleFailure now "empty/invalid currencies payload" s
            ⟨s1, getCachedCurrencies s1, true⟩
          | CurrenciesBody.array arrCurrencies =>
            if arrCurrencies.isEmpty then
              let s1 := markOracleFailure now "empty/invalid currencies payload" s
              ⟨s1, getCachedCurrencies s1, true⟩
            else
              let s1 := markOracleSuccess s
              let m2 := arrCurrencies.foldl
                (fun m cCurrency => mapSet m cCurrency.currency cCurrency)
                s1.mapCurrencies
              let s2 := { s1 with mapCurrencies := m2, fLoadedCurrencies := true }
              ⟨s2, arrCurrencies, true⟩

/-- Observable steps of `Oracle.load`: the 5000ms sleeps between retries and
the two event-bus emissions on exit. -/
inductive LoadEvent where
  | sleptMs (ms : Nat)
  | currencyLoaded (cache : CurrencyMap)
  | priceUpdate
deriving Repr, DecidableEq

/-- `Oracle.load` (source lines 200-209).  Each loop iteration consumes one
scripted fetch outcome; `none` means the script was exhausted while the
loop was still spinning (the real code would keep retrying forever). -/
def loadLoop (now : Int) (s : OracleState)
    (script : List (Fetched CurrenciesResponse)) :
    Option (OracleState × List LoadEvent) :=
  if s.fLoadedCurrencies then
    some (s, [LoadEvent.currencyLoaded s.mapCurrencies, LoadEvent.priceUpdate])
  else
    match script with
    | [] => none
    | r :: rest =>
      let o := getCurrencies now s r
      if o.state.fLoadedCurrencies then
        some (o.state,
          [LoadEvent.currencyLoaded o.state.mapCurrencies, LoadEvent.priceUpdate])
      else
        match loadLoop now o.state rest with
        | none => none
        | some (s2, evs) => some (s2, LoadEvent.sleptMs 5000 :: evs)

/-!
`AsyncInterval` (wallet scheduler module): a loop that, while a private
`#active` flag holds, awaits a callback (catching and logging any throw or
rejection) and then sleeps `timeOut` ms.  `clearInterval(delay)` runs
`setTimeout(() => active = false, delay)`, so the flag turns false only once
`delay` has elapsed after the call.

The embedding is a timed trace: iteration `k` starts at time `t`, the
callback takes `cbDur` ms and the sleep `timeOut` ms, so the next iteration
starts at `t + cbDur + timeOut`.  `clearTime` is the absolute time at which
the scheduled `setTimeout` body flips the flag (`clearInterval` call time
plus its delay); the loop observes the flag only at iteration start.
-/

/-- The `#active` flag as seen at time `t`. -/
def activeAt (clearTime : Option Nat) (t : Nat) : Bool :=
  match clearTime with
  | none => true
  | some ct => t < ct

/-- One `try { await cb() } catch (e) { console.error(e) }` body: the error
is swallowed and returned as the logged line, never propagated. -/
def runTick (cb : Nat → Except String Unit) (k : Nat) : Option String :=
  match cb k with
  | Except.ok _ => none
  | Except.error e => some e

/-- Absolute time at which `clearInterval(delay)` called at `callTime` sets
the active flag to false. -/
def clearIntervalTime (callTime delay : Nat) : Nat := callTime + delay

/-- The invocation trace of `AsyncInterval.#setInterval`, up to `fuel`
iterations: each entry is the iteration's start time paired with the error
line its callback got logged (if it failed). -/
def asyncIntervalTrace (cb : Nat → Except String Unit) (timeOut cbDur : Nat)
    (clearTime : Option Nat) : Nat → Nat → Nat → List (Nat × Option String)
  | 0, _, _ => []
  | fuel + 1, k, t =>
    if activeAt clearTime t then
      (t, runTick cb k) ::
        asyncIntervalTrace cb timeOut cbDur clearTime fuel (k + 1) (t + cbDur + timeOut)
    else []


/-- A `getPrice` fetch outcome that hits the `status === 404` branch. -/
def priceIs404 : Fetched PriceResponse → Bool
  | Fetched.success resp => !resp.ok && decide (resp.status = 404)
  | Fetched.reject _ => false

/-- A `getPrice` fetch outcome counted as a failure by `#markOracleFailure`:
a rejected fetch, a non-OK non-404 status, or an OK response whose body fails
to parse. -/
def priceFailure : Fetched PriceResponse → Bool
  | Fetched.reject _ => true
  | Fetched.success resp =>
    if !resp.ok then !(decide (resp.status = 404))
    else
      match resp.json with
      | Fetched.reject _ => true
      | Fetched.success _ => false

/-- A `getCurrencies` fetch outcome that hits the `status === 404` branch. -/
def currenciesIs404 : Fetched CurrenciesResponse → Bool
  | Fetched.success resp => !resp.ok && decide (resp.status = 404)
  | Fetched.reject _ => false

/-- A `getCurrencies` fetch outcome counted as a failure: rejection, non-OK
non-404 status, unparseable body, non-array body, or empty array. -/
def currenciesFailure : Fetched CurrenciesResponse → Bool
  | Fetched.reject _ => true
  | Fetched.success resp =>
    if !resp.ok then !(decide (resp.status = 404))
    else
      match resp.json with
      | Fetched.reject _ => true
      | Fetched.success CurrenciesBody.notArray => true
      | Fetched.success (CurrenciesBody.array l) => l.isEmpty

/-! ### Map lemmas -/

theorem mapGet_mapSet (m : CurrencyMap) (k k₂ : String) (v : Currency) :
    mapGet (mapSet m k v) k₂ = if k₂ = k then some v else mapGet m k₂ := by
  induction m with
  | nil =>
    by_cases h : k₂ = k
    · simp [mapSet, mapGet, h]
    · simp [mapSet, mapGet, h, Ne.symm h]
  | cons p rest ih =>
    by_cases hp : p.1 = k <;> by_cases hk : k₂ = k <;>
      simp_all [mapSet, mapGet, eq_comm]

theorem mapHas_eq_isSome (m : CurrencyMap) (k : String) :
    mapHas m k = (mapGet m k).isSome := by
  induction m with
  | nil => rfl
  | cons p rest ih => by_cases hp : p.1 = k <;> simp [mapHas, mapGet, hp, ih]

theorem mapHas_mapSet (m : CurrencyMap) (k k₂ : String) (v : Currency) :
    mapHas (mapSet m k v) k₂ = (k₂ = k || mapHas m k₂) := by
  by_cases h : k₂ = k <;> simp [mapHas_eq_isSome, mapGet_mapSet, h]

theorem mapGet_seed (now : Int) (m : CurrencyMap) (c k : String) :
    mapGet (if mapHas m c then m
            else mapSet m c { currency := c, value := 0, last_updated := now }) k =
      if mapGet m k = none ∧ k = c
      then some { currency := c, value := 0, last_updated := now }
      else mapGet m k := by
  by_cases h : mapHas m c = true
  · rw [if_pos h]
    rw [mapHas_eq_isSome] at h
    by_cases hk : k = c
    · subst hk
      cases hg : mapGet m k <;> simp_all
    · simp [hk]
  · rw [if_neg h]
    rw [mapHas_eq_isSome] at h
    cases hg : mapGet m k with
    | none =>
      by_cases hk : k = c
      · subst hk
        simp [mapGet_mapSet, hg]
      · simp [mapGet_mapSet, hk, hg]
    | some cv =>
      by_cases hk : k = c
      · subst hk
        simp_all
      · simp [mapGet_mapSet, hk, hg]

@[simp] theorem ensure_fLoaded (now : Int) (s : OracleState) :
    (ensureFallbackCurrencies now s).fLoadedCurrencies = s.fLoadedCurrencies := rfl

@[simp] theorem ensure_fDisabled (now : Int) (s : OracleState) :
    (ensureFallbackCurrencies now s).fOracleDisabled = s.fOracleDisabled := rfl

@[simp] theorem ensure_nFailures (now : Int) (s : OracleState) :
    (ensureFallbackCurrencies now s).nOracleFailures = s.nOracleFailures := rfl

@[simp] theorem ensure_log (now : Int) (s : OracleState) :
    (ensureFallbackCurrencies now s).log = s.log := rfl

theorem mapGet_ensureFallback (now : Int) (s : OracleState) (k : String) :
    mapGet (ensureFallbackCurrencies now s).mapCurrencies k =
      if mapGet s.mapCurrencies k = none ∧ k ∈ FALLBACK_CURRENCIES
      then some { currency := k, value := 0, last_updated := now }
      else mapGet s.mapCurrencies k := by
  simp only [ensureFallbackCurrencies, FALLBACK_CURRENCIES, List.foldl]
  rw [mapGet_seed, mapGet_seed, mapGet_seed, mapGet_seed]
  by_cases h1 : k = "usd" <;> by_cases h2 : k = "eur" <;>
    by_cases h3 : k = "gbp" <;> by_cases h4 : k = "btc" <;>
    cases hm : mapGet s.mapCurrencies k <;>
    simp_all [FALLBACK_CURRENCIES]
/-! ### Disable / failure bookkeeping lemmas -/

theorem disableOracle_of_disabled (now : Int) (reason : String) (s : OracleState)
    (h : s.fOracleDisabled = true) : disableOracle now reason s = s := by
  simp [disableOracle, h]

theorem disableOracle_fDisabled (now : Int) (reason : String) (s : OracleState) :
    (disableOracle now reason s).fOracleDisabled = true := by
  by_cases h : s.fOracleDisabled = true <;> simp [disableOracle, h]

theorem disableOracle_fLoaded (now : Int) (reason : String) (s : OracleState)
    (h : s.fOracleDisabled = false) :
    (disableOracle now reason s).fLoadedCurrencies = true := by
  simp [disableOracle, h]

theorem disableOracle_log (now : Int) (reason : String) (s : OracleState)
    (h : s.fOracleDisabled = false) :
    (disableOracle now reason s).log = s.log ++ ["Oracle disabled: " ++ reason] := by
  simp [disableOracle, h]

theorem disableOracle_nFailures (now : Int) (reason : String) (s : OracleState)
    (h : s.fOracleDisabled = false) :
    (disableOracle now reason s).nOracleFailures = s.nOracleFailures := by
  simp [disableOracle, h]

theorem mapGet_disableOracle (now : Int) (reason : String) (s : OracleState)
    (h : s.fOracleDisabled = false) (k : String) :
    mapGet (disableOracle now reason s).mapCurrencies k =
      if mapGet s.mapCurrencies k = none ∧ k ∈ FALLBACK_CURRENCIES
      then some { currency := k, value := 0, last_updated := now }
      else mapGet s.mapCurrencies k := by
  have h2 := mapGet_ensureFallback now { s with fOracleDisabled := true } k
  simp [disableOracle, h]
  exact h2

theorem markOracleFailure_eq (now : Int) (reason : String) (s : OracleState) :
    markOracleFailure now reason s =
      (if ORACLE_RETRY_LIMIT ≤ s.nOracleFailures + 1
       then disableOracle now reason
         { s with nOracleFailures := s.nOracleFailures + 1,
                  log := s.log ++ [failureLogMsg (s.nOracleFailures + 1) reason] }
       else { s with nOracleFailures := s.nOracleFailures + 1,
                     log := s.log ++ [failureLogMsg (s.nOracleFailures + 1) reason] }) := by
  simp [markOracleFailure]

theorem markOracleFailure_fDisabled (now : Int) (reason : String) (s : OracleState)
    (h : s.fOracleDisabled = false) :
    (markOracleFailure now reason s).fOracleDisabled =
      decide (ORACLE_RETRY_LIMIT ≤ s.nOracleFailures + 1) := by
  rw [markOracleFailure_eq]
  by_cases hn : ORACLE_RETRY_LIMIT ≤ s.nOracleFailures + 1
  · simp [hn, disableOracle_fDisabled]
  · simp [hn, h]

theorem markOracleFailure_disabled_mono (now : Int) (reason : String) (s : OracleState)
    (h : s.fOracleDisabled = true) :
    (markOracleFailure now reason s).fOracleDisabled = true := by
  rw [markOracleFailure_eq]
  by_cases hn : ORACLE_RETRY_LIMIT ≤ s.nOracleFailures + 1
  · simp [hn, disableOracle_fDisabled]
  · simp [hn, h]

theorem loadLoop_loaded (now : Int) (s : OracleState)
    (script : List (Fetched CurrenciesResponse)) (h : s.fLoadedCurrencies = true) :
    loadLoop now s script =
      some (s, [LoadEvent.currencyLoaded s.mapCurrencies, LoadEvent.priceUpdate]) := by
  cases script <;> simp [loadLoop, h]

/-- C4: Disablement is idempotent and frame-preserving: the first disablement
adds each fallback currency (usd, eur, gbp, btc) at value 0 to the cache only
for codes not already present, leaves every already-cached record unchanged
(fallback codes included), sets the loaded flag, and appends exactly one
diagnostic; invoking the disable path again on the already-disabled oracle is
a complete no-op (no reseeding, no state change, no duplicate diagnostic). -/
theorem C4_disable_idempotent_frame (now now2 : Int) (reason reason2 : String)
    (s : OracleState) (h : s.fOracleDisabled = false) :
    (∀ k, k ∈ FALLBACK_CURRENCIES → mapGet s.mapCurrencies k = none →
      mapGet (disableOracle now reason s).mapCurrencies k =
        some { currency := k, value := 0, last_updated := now }) ∧
    (∀ k c, mapGet s.mapCurrencies k = some c →
      mapGet (disableOracle now reason s).mapCurrencies k = some c) ∧
    (∀ k, k ∉ FALLBACK_CURRENCIES →
      mapGet (disableOracle now reason s).mapCurrencies k = mapGet s.mapCurrencies k) ∧
    (disableOracle now reason s).fLoadedCurrencies = true ∧
    (disableOracle now reason s).log = s.log ++ ["Oracle disabled: " ++ reason] ∧
    disableOracle now2 reason2 (disableOracle now reason s) = disableOracle now reason s := by
  refine ⟨?_, ?_, ?_, ?_, ?_, ?_⟩
  · intro k hk hn
    rw [mapGet_disableOracle now reason s h k]
    simp [hn, hk]
  · intro k c hc
    rw [mapGet_disableOracle now reason s h k]
    simp [hc]
  · intro k hk
    rw [mapGet_disableOracle now reason s h k]
    simp [hk]
  · exact disableOracle_fLoaded now reason s h
  · exact disableOracle_log now reason s h
  · exact disableOracle_of_disabled now2 reason2 _ (disableOracle_fDisabled now reason s)

/-- Witness for C4 at a concrete active oracle. -/
theorem C4_witness :
    (mkOracle true 0).fOracleDisabled = false ∧
    mapGet (disableOracle 5 "down" (mkOracle true 0)).mapCurrencies "usd" =
      some { currency := "usd", value := 0, last_updated := 5 } ∧
    (disableOracle 5 "down" (mkOracle true 0)).fLoadedCurrencies = true ∧
    disableOracle 6 "again" (disableOracle 5 "down" (mkOracle true 0)) =
      disableOracle 5 "down" (mkOracle true 0) := by
  have h : (mkOracle true 0).fOracleDisabled = false := by decide
  have hc := C4_disable_idempotent_frame 5 6 "down" "again" (mkOracle true 0) h
  refine ⟨h, ?_, hc.2.2.2.1, hc.2.2.2.2.2⟩
  exact hc.1 "usd" (by decide) (by decide)

theorem cOracle_mapCurrencies (now : Int) :
    (cOracle now).mapCurrencies =
      [("usd", { currency := "usd", value := 0, last_updated := now }),
       ("eur", { currency := "eur", value := 0, last_updated := now }),
       ("gbp", { currency := "gbp", value := 0, last_updated := now }),
       ("btc", { currency := "btc", value := 0, last_updated := now })] := rfl

theorem cOracle_cachedPrice_zero (now : Int) (k : String) :
    getCachedPrice (cOracle now) k = 0 := by
  unfold getCachedPrice
  rw [cOracle_mapCurrencies]
  simp only [mapGet]
  split_ifs <;> simp [jsOrZero]

/-- C10: since `ORACLE_ENABLED` is the constant `false`, every instance (the
singleton `cOracle` included) is built disabled and loaded, with the cache
holding exactly the four fallback records at value 0; no operation performs a
network fetch, `getPrice`/`getCachedPrice` return 0 for every code,
`getCurrencies` returns the four fallback records, and `load` resolves
immediately after emitting its two events. -/
theorem C10_disabled_by_construction (now now2 : Int) (c : String)
    (r : Fetched PriceResponse) (rc : Fetched CurrenciesResponse)
    (script : List (Fetched CurrenciesResponse)) :
    ORACLE_ENABLED = false ∧
    (cOracle now).fOracleDisabled = true ∧
    (cOracle now).fLoadedCurrencies = true ∧
    (cOracle now).mapCurrencies =
      [("usd", { currency := "usd", value := 0, last_updated := now }),
       ("eur", { currency := "eur", value := 0, last_updated := now }),
       ("gbp", { currency := "gbp", value := 0, last_updated := now }),
       ("btc", { currency := "btc", value := 0, last_updated := now })] ∧
    getPrice now2 (cOracle now) c r = ⟨cOracle now, 0, false⟩ ∧
    getCachedPrice (cOracle now) c = 0 ∧
    getCurrencies now2 (cOracle now) rc =
      ⟨cOracle now,
       [{ currency := "usd", value := 0, last_updated := now },
        { currency := "eur", value := 0, last_updated := now },
        { currency := "gbp", value := 0, last_updated := now },
        { currency := "btc", value := 0, last_updated := now }], false⟩ ∧
    loadLoop now2 (cOracle now) script =
      some (cOracle now,
        [LoadEvent.currencyLoaded (cOracle now).mapCurrencies, LoadEvent.priceUpdate]) := by
  have hd : (cOracle now).fOracleDisabled = true := rfl
  have hl : (cOracle now).fLoadedCurrencies = true := rfl
  refine ⟨rfl, hd, hl, cOracle_mapCurrencies now, ?_, cOracle_cachedPrice_zero now c, ?_, ?_⟩
  · simp [getPrice, hd, cOracle_cachedPrice_zero]
  · simp [getCurrencies, hd]
    rfl
  · exact loadLoop_loaded now2 (cOracle now) script hl

/-- C2: the only transition is ACTIVE → DISABLED, occurring exactly when (a)
`ORACLE_ENABLED` is false at construction, (b) a fetch returns HTTP 404 (even
with zero prior failures), or (c) the consecutive-failure counter reaches
`ORACLE_RETRY_LIMIT` = 3; once disabled, `getPrice` and `getCurrencies`
return cached data with no network fetch and leave the state unchanged,
permanently. -/
theorem C2_state_machine (now : Int) (e : Bool) (s : OracleState) (c : String)
    (r : Fetched PriceResponse) (rc : Fetched CurrenciesResponse)
    (h : s.fOracleDisabled = false) (d : OracleState) (hd : d.fOracleDisabled = true) :
    ORACLE_RETRY_LIMIT = 3 ∧
    (mkOracle e now).fOracleDisabled = !e ∧
    ((getPrice now s c r).state.fOracleDisabled = true ↔
      (priceIs404 r = true ∨
       (priceFailure r = true ∧ ORACLE_RETRY_LIMIT ≤ s.nOracleFailures + 1))) ∧
    ((getCurrencies now s rc).state.fOracleDisabled = true ↔
      (currenciesIs404 rc = true ∨
       (currenciesFailure rc = true ∧ ORACLE_RETRY_LIMIT ≤ s.nOracleFailures + 1))) ∧
    getPrice now d c r = ⟨d, getCachedPrice d c, false⟩ ∧
    getCurrencies now d rc = ⟨d, getCachedCurrencies d, false⟩ := by
  refine ⟨rfl, by cases e <;> rfl, ?_, ?_, ?_, ?_⟩
  · cases r with
    | reject msg =>
      simp only [getPrice, h, Bool.false_eq_true, if_false, priceIs404, priceFailure,
        markOracleFailure_eq]
      by_cases hn : ORACLE_RETRY_LIMIT ≤ s.nOracleFailures + 1 <;>
        simp [hn, disableOracle_fDisabled]
    | success resp =>
      by_cases hok : resp.ok = true
      · cases hj : resp.json with
        | reject msg =>
          simp only [getPrice, h, Bool.false_eq_true, if_false, hok, hj, priceIs404,
            priceFailure, markOracleFailure_eq, Bool.not_true]
          by_cases hn : ORACLE_RETRY_LIMIT ≤ s.nOracleFailures + 1 <;>
            simp [hn, disableOracle_fDisabled, hok]
        | success cc =>
          simp [getPrice, h, hok, hj, markOracleSuccess, priceIs404, priceFailure]
      · have hok2 : resp.ok = false := by
          cases hb : resp.ok
          · rfl
          · exact absurd hb hok
        by_cases hst : resp.status = 404
        · simp [getPrice, h, hok2, hst, priceIs404, priceFailure, disableOracle_fDisabled]
        · simp only [getPrice, h, Bool.false_eq_true, if_false, hok2, hst, priceIs404,
            priceFailure, markOracleFailure_eq, Bool.not_false]
          by_cases hn : ORACLE_RETRY_LIMIT ≤ s.nOracleFailures + 1 <;>
            simp [hn, disableOracle_fDisabled, hok2, hst]
  · cases rc with
    | reject msg =>
      simp only [getCurrencies, h, Bool.false_eq_true, if_false, currenciesIs404,
        currenciesFailure, markOracleFailure_eq]
      by_cases hn : ORACLE_RETRY_LIMIT ≤ s.nOracleFailures + 1 <;>
        simp [hn, disableOracle_fDisabled]
    | success resp =>
      by_cases hok : resp.ok = true
      · cases hj : resp.json with
        | reject msg =>
          simp only [getCurrencies, h, Bool.false_eq_true, if_false, hok, hj,
            currenciesIs404, currenciesFailure, markOracleFailure_eq, Bool.not_true]
          by_cases hn : ORACLE_RETRY_LIMIT ≤ s.nOracleFailures + 1 <;>
            simp [hn, disableOracle_fDisabled, hok]
        | success body =>
          cases body with
          | notArray =>
            simp only [getCurrencies, h, Bool.false_eq_true, if_false, hok, hj,
              currenciesIs404, currenciesFailure, markOracleFailure_eq, Bool.not_true]
            by_cases hn : ORACLE_RETRY_LIMIT ≤ s.nOracleFailures + 1 <;>
              simp [hn, disableOracle_fDisabled, hok]
          | array l =>
            by_cases hl : l.isEmpty = true
            · simp only [getCurrencies, h, Bool.false_eq_true, if_false, hok, hj, hl,
                currenciesIs404, currenciesFailure, markOracleFailure_eq, Bool.not_true]
              by_cases hn : ORACLE_RETRY_LIMIT ≤ s.nOracleFailures + 1 <;>
                simp [hn, disableOracle_fDisabled, hok, hl]
            · simp [getCurrencies, h, hok, hj, hl, markOracleSuccess,
                currenciesIs404, currenciesFailure]
      · have hok2 : resp.ok = false := by
          cases hb : resp.ok
          · rfl
          · exact absurd hb hok
        by_cases hst : resp.status = 404
        · simp [getCurrencies, h, hok2, hst, currenciesIs404, currenciesFailure,
            disableOracle_fDisabled]
        · simp only [getCurrencies, h, Bool.false_eq_true, if_false, hok2, hst,
            currenciesIs404, currenciesFailure, markOracleFailure_eq, Bool.not_false]
          by_cases hn : ORACLE_RETRY_LIMIT ≤ s.nOracleFailures + 1 <;>
            simp [hn, disableOracle_fDisabled, hok2, hst]
  · simp [getPrice, hd]
  · simp [getCurrencies, hd]

/-- Witness for C2: an active oracle with 2 prior failures is disabled by a
third (HTTP 500) failure. -/
theorem C2_witness :
    (⟨[], false, 2, false, []⟩ : OracleState).fOracleDisabled = false ∧
    (getPrice 0 ⟨[], false, 2, false, []⟩ "usd"
      (Fetched.success ⟨false, 500, Fetched.reject none⟩)).state.fOracleDisabled = true ∧
    getPrice 0 (oracleNew 0) "usd" (Fetched.success ⟨false, 500, Fetched.reject none⟩) =
      ⟨oracleNew 0, getCachedPrice (oracleNew 0) "usd", false⟩ := by
  have h : (⟨[], false, 2, false, []⟩ : OracleState).fOracleDisabled = false := rfl
  have hd : (oracleNew 0).fOracleDisabled = true := rfl
  have hc := C2_state_machine 0 true ⟨[], false, 2, false, []⟩ "usd"
    (Fetched.success ⟨false, 500, Fetched.reject none⟩)
    (Fetched.reject none) h (oracleNew 0) hd
  refine ⟨h, hc.2.2.1.mpr (Or.inr ⟨by decide, by decide⟩), ?_⟩
  have hc2 := C2_state_machine 0 true ⟨[], false, 2, false, []⟩ "usd"
    (Fetched.success ⟨false, 500, Fetched.reject none⟩)
    (Fetched.reject none) h (oracleNew 0) hd
  exact hc2.2.2.2.2.1

/-- C3: the operations are total functions in this embedding (they always
resolve, never throw), and on every failure path — disabled short-circuit,
rejected fetch, non-2xx status, malformed or empty payload — `getPrice`
resolves with the cached price for the requested code (0 when absent) and
`getCurrencies` resolves with the cached snapshot. -/
theorem C3_failure_paths_degrade_to_cache (now : Int) (s : OracleState) (c : String)
    (r : Fetched PriceResponse) (rc : Fetched CurrenciesResponse)
    (hp : priceFailure r = true ∨ priceIs404 r = true ∨ s.fOracleDisabled = true)
    (hc : currenciesFailure rc = true ∨ currenciesIs404 rc = true ∨
      s.fOracleDisabled = true) :
    (getPrice now s c r).value = getCachedPrice (getPrice now s c r).state c ∧
    (getCurrencies now s rc).value = getCachedCurrencies (getCurrencies now s rc).state := by
  constructor
  · by_cases hdis : s.fOracleDisabled = true
    · simp [getPrice, hdis]
    · have h : s.fOracleDisabled = false := by
        cases hb : s.fOracleDisabled
        · rfl
        · exact absurd hb hdis
      cases r with
      | reject msg => simp [getPrice, h]
      | success resp =>
        by_cases hok : resp.ok = true
        · cases hj : resp.json with
          | reject msg => simp [getPrice, h, hok, hj]
          | success cc =>
            exfalso
            rcases hp with hp | hp | hp
            · simp [priceFailure, hok, hj] at hp
            · simp [priceIs404, hok] at hp
            · exact absurd hp hdis
        · have hok2 : resp.ok = false := by
            cases hb : resp.ok
            · rfl
            · exact absurd hb hok
          by_cases hst : resp.status = 404 <;> simp [getPrice, h, hok2, hst]
  · by_cases hdis : s.fOracleDisabled = true
    · simp [getCurrencies, hdis]
    · have h : s.fOracleDisabled = false := by
        cases hb : s.fOracleDisabled
        · rfl
        · exact absurd hb hdis
      cases rc with
      | reject msg => simp [getCurrencies, h]
      | success resp =>
        by_cases hok : resp.ok = true
        · cases hj : resp.json with
          | reject msg => simp [getCurrencies, h, hok, hj]
          | success body =>
            cases body with
            | notArray => simp [getCurrencies, h, hok, hj]
            | array l =>
              by_cases hl : l.isEmpty = true
              · simp [getCurrencies, h, hok, hj, hl]
              · exfalso
                rcases hc with hc | hc | hc
                · simp [currenciesFailure, hok, hj, hl] at hc
                · simp [currenciesIs404, hok] at hc
                · exact absurd hc hdis
        · have hok2 : resp.ok = false := by
            cases hb : resp.ok
            · rfl
            · exact absurd hb hok
          by_cases hst : resp.status = 404 <;> simp [getCurrencies, h, hok2, hst]

/-- Witness for C3: a rejected fetch on an empty active oracle resolves with
the cached (absent, hence 0) price and the cached (empty) snapshot. -/
theorem C3_witness :
    (getPrice 0 (mkOracle true 0) "usd" (Fetched.reject (some "boom"))).value =
      getCachedPrice
        (getPrice 0 (mkOracle true 0) "usd" (Fetched.reject (some "boom"))).state "usd" ∧
    (getCurrencies 0 (mkOracle true 0) (Fetched.reject (some "boom"))).value =
      getCachedCurrencies
        (getCurrencies 0 (mkOracle true 0) (Fetched.reject (some "boom"))).state := by
  exact C3_failure_paths_degrade_to_cache 0 (mkOracle true 0) "usd"
    (Fetched.reject (some "boom")) (Fetched.reject (some "boom"))
    (Or.inl (by decide)) (Or.inl (by decide))

theorem jsOrZero_eq (v : Int) : jsOrZero v = v := by
  unfold jsOrZero
  split_ifs with h
  · exact h.symm
  · rfl

/-- Counterexample to C1 as stated: requesting "usd" while the server returns
a record labelled "eur" stores the entry under the requested key "usd"; no
cache entry is created under the server-returned field "eur". -/
theorem C1_counterexample :
    mapGet (getPrice 0 (mkOracle true 0) "usd"
      (Fetched.success ⟨true, 200, Fetched.success ⟨"eur", 7, 1⟩⟩)).state.mapCurrencies
      "eur" = none ∧
    mapGet (getPrice 0 (mkOracle true 0) "usd"
      (Fetched.success ⟨true, 200, Fetched.success ⟨"eur", 7, 1⟩⟩)).state.mapCurrencies
      "usd" = some ⟨"eur", 7, 1⟩ ∧
    (getPrice 0 (mkOracle true 0) "usd"
      (Fetched.success ⟨true, 200, Fetched.success ⟨"eur", 7, 1⟩⟩)).value = 7 := by
  refine ⟨rfl, rfl, rfl⟩

/-- C1 as amended: on an OK parsed response, `getPrice` resets the failure
counter to 0, upserts the record into the cache keyed by the requested code
(the record's own currency field is not used for keying and is not
validated), leaves every other key unchanged, and returns the record's
value. -/
theorem C1_amended_getPrice_ok (now : Int) (s : OracleState) (c : String)
    (resp : PriceResponse) (cc : Currency) (h : s.fOracleDisabled = false)
    (hok : resp.ok = true) (hj : resp.json = Fetched.success cc) :
    (getPrice now s c (Fetched.success resp)).state.nOracleFailures = 0 ∧
    mapGet (getPrice now s c (Fetched.success resp)).state.mapCurrencies c = some cc ∧
    (∀ k, k ≠ c →
      mapGet (getPrice now s c (Fetched.success resp)).state.mapCurrencies k =
        mapGet s.mapCurrencies k) ∧
    (getPrice now s c (Fetched.success resp)).value = cc.value := by
  refine ⟨?_, ?_, ?_, ?_⟩
  · simp [getPrice, h, hok, hj, markOracleSuccess]
  · simp [getPrice, h, hok, hj, markOracleSuccess, mapGet_mapSet]
  · intro k hk
    simp [getPrice, h, hok, hj, markOracleSuccess, mapGet_mapSet, hk]
  · simp [getPrice, h, hok, hj]

/-- Witness for the amended C1 at a mismatched server label. -/
theorem C1_amended_witness :
    mapGet (getPrice 3 (mkOracle true 0) "usd"
      (Fetched.success ⟨true, 200, Fetched.success ⟨"btc", 9, 2⟩⟩)).state.mapCurrencies
      "usd" = some ⟨"btc", 9, 2⟩ ∧
    (getPrice 3 (mkOracle true 0) "usd"
      (Fetched.success ⟨true, 200, Fetched.success ⟨"btc", 9, 2⟩⟩)).value = 9 := by
  have hc := C1_amended_getPrice_ok 3 (mkOracle true 0) "usd"
    ⟨true, 200, Fetched.success ⟨"btc", 9, 2⟩⟩ ⟨"btc", 9, 2⟩ rfl rfl rfl
  exact ⟨hc.2.1, hc.2.2.2⟩

/-- C9: when `getPrice c` succeeds, the cache afterwards maps the requested
key `c` itself to the fetched record, `getCachedPrice c` returns exactly the
value `getPrice` returned — even when the record's own currency field differs
from `c` — and no new cache entry appears under the record's currency
field. -/
theorem C9_requested_key_cached (now : Int) (s : OracleState) (c : String)
    (resp : PriceResponse) (cc : Currency) (h : s.fOracleDisabled = false)
    (hok : resp.ok = true) (hj : resp.json = Fetched.success cc) :
    mapGet (getPrice now s c (Fetched.success resp)).state.mapCurrencies c = some cc ∧
    getCachedPrice (getPrice now s c (Fetched.success resp)).state c =
      (getPrice now s c (Fetched.success resp)).value ∧
    (cc.currency ≠ c → mapHas s.mapCurrencies cc.currency = false →
      mapHas (getPrice now s c (Fetched.success resp)).state.mapCurrencies cc.currency
        = false) := by
  refine ⟨?_, ?_, ?_⟩
  · simp [getPrice, h, hok, hj, markOracleSuccess, mapGet_mapSet]
  · simp [getPrice, h, hok, hj, markOracleSuccess, getCachedPrice, mapGet_mapSet,
      jsOrZero_eq]
  · intro hne hhas
    simp [getPrice, h, hok, hj, markOracleSuccess, mapHas_mapSet, hne, hhas]

/-- Witness for C9 at a mismatched server label: the requested key "usd" is
cached and readable, and no "gbp" entry appears. -/
theorem C9_witness :
    mapGet (getPrice 1 (mkOracle true 0) "usd"
      (Fetched.success ⟨true, 200, Fetched.success ⟨"gbp", 4, 2⟩⟩)).state.mapCurrencies
      "usd" = some ⟨"gbp", 4, 2⟩ ∧
    getCachedPrice (getPrice 1 (mkOracle true 0) "usd"
      (Fetched.success ⟨true, 200, Fetched.success ⟨"gbp", 4, 2⟩⟩)).state "usd" =
      (getPrice 1 (mkOracle true 0) "usd"
        (Fetched.success ⟨true, 200, Fetched.success ⟨"gbp", 4, 2⟩⟩)).value ∧
    mapHas (getPrice 1 (mkOracle true 0) "usd"
      (Fetched.success ⟨true, 200, Fetched.success ⟨"gbp", 4, 2⟩⟩)).state.mapCurrencies
      "gbp" = false := by
  have hc := C9_requested_key_cached 1 (mkOracle true 0) "usd"
    ⟨true, 200, Fetched.success ⟨"gbp", 4, 2⟩⟩ ⟨"gbp", 4, 2⟩ rfl rfl rfl
  exact ⟨hc.1, hc.2.1, hc.2.2 (by decide) rfl⟩

theorem mapHas_foldl_set (l : List Currency) (m : CurrencyMap) (k : String) :
    mapHas (l.foldl (fun m2 cC => mapSet m2 cC.currency cC) m) k = true ↔
      (k ∈ l.map Currency.currency ∨ mapHas m k = true) := by
  induction l generalizing m with
  | nil => simp
  | cons cc rest ih =>
    rw [List.foldl_cons, ih, mapHas_mapSet]
    simp only [List.map_cons, List.mem_cons, Bool.or_eq_true, decide_eq_true_eq]
    tauto

/-- Counterexample to C7 as stated: a `getPrice("USD")` success stores the
cache entry under the verbatim key "USD", which is not lowercase. -/
theorem C7_counterexample :
    (getPrice 0 (mkOracle true 0) "USD"
      (Fetched.success ⟨true, 200, Fetched.success ⟨"usd", 5, 1⟩⟩)).state.mapCurrencies =
      [("USD", ⟨"usd", 5, 1⟩)] ∧
    mapHas (getPrice 0 (mkOracle true 0) "USD"
      (Fetched.success ⟨true, 200, Fetched.success ⟨"usd", 5, 1⟩⟩)).state.mapCurrencies
      "usd" = false ∧
    ("USD".data.all Char.isLower) = false := by
  refine ⟨rfl, rfl, by decide⟩

/-- C7 as amended: no case normalization is applied anywhere — the keys
written by an OK `getPrice` are exactly the requested code verbatim, and the
keys written by an OK non-empty `getCurrencies` are exactly the records' own
currency fields verbatim (existing keys persist unchanged). -/
theorem C7_amended_keys_verbatim (now : Int) (s : OracleState) (c k : String)
    (resp : PriceResponse) (cc : Currency) (respc : CurrenciesResponse)
    (l : List Currency) (h : s.fOracleDisabled = false)
    (hok : resp.ok = true) (hj : resp.json = Fetched.success cc)
    (hokc : respc.ok = true) (hjc : respc.json = Fetched.success (CurrenciesBody.array l))
    (hl : l.isEmpty = false) :
    (mapHas (getPrice now s c (Fetched.success resp)).state.mapCurrencies k = true ↔
      (k = c ∨ mapHas s.mapCurrencies k = true)) ∧
    (mapHas (getCurrencies now s (Fetched.success respc)).state.mapCurrencies k = true ↔
      (k ∈ l.map Currency.currency ∨ mapHas s.mapCurrencies k = true)) := by
  constructor
  · simp [getPrice, h, hok, hj, markOracleSuccess, mapHas_mapSet]
  · simp only [getCurrencies, h, Bool.false_eq_true, if_false, hokc, hjc, hl,
      Bool.not_true, markOracleSuccess]
    rw [mapHas_foldl_set]

/-- Witness for the amended C7 with mixed-case inputs kept verbatim. -/
theorem C7_amended_witness :
    mapHas (getPrice 0 (mkOracle true 0) "USD"
      (Fetched.success ⟨true, 200, Fetched.success ⟨"usd", 5, 1⟩⟩)).state.mapCurrencies
      "USD" = true ∧
    mapHas (getCurrencies 0 (mkOracle true 0)
      (Fetched.success ⟨true, 200,
        Fetched.success (CurrenciesBody.array [⟨"EUR", 2, 1⟩])⟩)).state.mapCurrencies
      "EUR" = true := by
  have hc := C7_amended_keys_verbatim 0 (mkOracle true 0) "USD" "USD"
    ⟨true, 200, Fetched.success ⟨"usd", 5, 1⟩⟩ ⟨"usd", 5, 1⟩
    ⟨true, 200, Fetched.success (CurrenciesBody.array [⟨"EUR", 2, 1⟩])⟩
    [⟨"EUR", 2, 1⟩] rfl rfl rfl rfl rfl rfl
  constructor
  · exact hc.1.mpr (Or.inl rfl)
  · have hc2 := C7_amended_keys_verbatim 0 (mkOracle true 0) "USD" "EUR"
      ⟨true, 200, Fetched.success ⟨"usd", 5, 1⟩⟩ ⟨"usd", 5, 1⟩
      ⟨true, 200, Fetched.success (CurrenciesBody.array [⟨"EUR", 2, 1⟩])⟩
      [⟨"EUR", 2, 1⟩] rfl rfl rfl rfl rfl rfl
    exact hc2.2.mpr (Or.inl (by decide))

theorem mapGet_foldl_set (l : List Currency) (m : CurrencyMap) (k : String) :
    mapGet (l.foldl (fun m2 cC => mapSet m2 cC.currency cC) m) k =
      (match l.reverse.find? (fun d => decide (d.currency = k)) with
       | some d => some d
       | none => mapGet m k) := by
  induction l generalizing m with
  | nil => simp
  | cons cc rest ih =>
    rw [List.foldl_cons, ih, List.reverse_cons, List.find?_append]
    cases hf : rest.reverse.find? (fun d => decide (d.currency = k)) with
    | some d => simp [Option.or]
    | none =>
      simp only [Option.or]
      by_cases hc : cc.currency = k
      · simp [List.find?, hc, mapGet_mapSet]
      · have hck : ¬ k = cc.currency := fun hh => hc hh.symm
        simp [List.find?, hc, mapGet_mapSet, hck]

/-- Counterexample to C5 as stated: an OK list with two records sharing the
currency field "usd" returns both records, yet the first record's value 1 is
not retrievable — `getCachedPrice "usd"` yields the later record's value 2. -/
theorem C5_counterexample :
    (⟨"usd", 1, 0⟩ : Currency) ∈ (getCurrencies 0 (mkOracle true 0)
      (Fetched.success ⟨true, 200, Fetched.success
        (CurrenciesBody.array [⟨"usd", 1, 0⟩, ⟨"usd", 2, 0⟩])⟩)).value ∧
    getCachedPrice (getCurrencies 0 (mkOracle true 0)
      (Fetched.success ⟨true, 200, Fetched.success
        (CurrenciesBody.array [⟨"usd", 1, 0⟩, ⟨"usd", 2, 0⟩])⟩)).state "usd" = 2 := by
  refine ⟨by decide, rfl⟩

/-- C5 as amended: an OK non-empty list resets the failure counter, sets the
loaded flag, returns the fetched list itself, and upserts every record keyed
by its own currency field with later duplicates overwriting earlier ones; a
returned record's value is retrievable via `getCachedPrice` under its own
currency field whenever the record is the last occurrence of that field in
the list. -/
theorem C5_amended_getCurrencies_ok (now : Int) (s : OracleState)
    (resp : CurrenciesResponse) (l : List Currency) (h : s.fOracleDisabled = false)
    (hok : resp.ok = true) (hj : resp.json = Fetched.success (CurrenciesBody.array l))
    (hl : l.isEmpty = false) :
    (getCurrencies now s (Fetched.success resp)).state.nOracleFailures = 0 ∧
    (getCurrencies now s (Fetched.success resp)).state.fLoadedCurrencies = true ∧
    (getCurrencies now s (Fetched.success resp)).value = l ∧
    (∀ k, mapGet (getCurrencies now s (Fetched.success resp)).state.mapCurrencies k =
      (match l.reverse.find? (fun d => decide (d.currency = k)) with
       | some d => some d
       | none => mapGet s.mapCurrencies k)) ∧
    (∀ cc, l.reverse.find? (fun d => decide (d.currency = cc.currency)) = some cc →
      getCachedPrice (getCurrencies now s (Fetched.success resp)).state cc.currency =
        cc.value) := by
  refine ⟨?_, ?_, ?_, ?_, ?_⟩
  · simp [getCurrencies, h, hok, hj, hl, markOracleSuccess]
  · simp [getCurrencies, h, hok, hj, hl, markOracleSuccess]
  · simp [getCurrencies, h, hok, hj, hl]
  · intro k
    simp only [getCurrencies, h, Bool.false_eq_true, if_false, hok, hj, hl,
      Bool.not_true, markOracleSuccess]
    rw [mapGet_foldl_set]
  · intro cc hcc
    have hm : mapGet
        (getCurrencies now s (Fetched.success resp)).state.mapCurrencies cc.currency =
        some cc := by
      simp only [getCurrencies, h, Bool.false_eq_true, if_false, hok, hj, hl,
        Bool.not_true, markOracleSuccess]
      rw [mapGet_foldl_set, hcc]
    simp [getCachedPrice, hm, jsOrZero_eq]

/-- Witness for the amended C5 on a duplicate-key list: the later "usd"
record is retrievable, and the loaded flag and returned list behave as
stated. -/
theorem C5_amended_witness :
    (getCurrencies 0 (mkOracle true 0)
      (Fetched.success ⟨true, 200, Fetched.success
        (CurrenciesBody.array [⟨"usd", 1, 0⟩, ⟨"usd", 2, 0⟩])⟩)).state.fLoadedCurrencies
      = true ∧
    (getCurrencies 0 (mkOracle true 0)
      (Fetched.success ⟨true, 200, Fetched.success
        (CurrenciesBody.array [⟨"usd", 1, 0⟩, ⟨"usd", 2, 0⟩])⟩)).value =
      [⟨"usd", 1, 0⟩, ⟨"usd", 2, 0⟩] ∧
    getCachedPrice (getCurrencies 0 (mkOracle true 0)
      (Fetched.success ⟨true, 200, Fetched.success
        (CurrenciesBody.array [⟨"usd", 1, 0⟩, ⟨"usd", 2, 0⟩])⟩)).state "usd" = 2 := by
  have hc := C5_amended_getCurrencies_ok 0 (mkOracle true 0)
    ⟨true, 200, Fetched.success (CurrenciesBody.array [⟨"usd", 1, 0⟩, ⟨"usd", 2, 0⟩])⟩
    [⟨"usd", 1, 0⟩, ⟨"usd", 2, 0⟩] rfl rfl rfl rfl
  refine ⟨hc.2.1, hc.2.2.1, ?_⟩
  exact hc.2.2.2.2 ⟨"usd", 2, 0⟩ (by decide)

theorem loadLoop_shape (now : Int) (script : List (Fetched CurrenciesResponse)) :
    ∀ (s s2 : OracleState) (evs : List LoadEvent),
    loadLoop now s script = some (s2, evs) →
    s2.fLoadedCurrencies = true ∧
    ∃ n, evs = List.replicate n (LoadEvent.sleptMs 5000) ++
      [LoadEvent.currencyLoaded s2.mapCurrencies, LoadEvent.priceUpdate] := by
  induction script with
  | nil =>
    intro s s2 evs hsome
    by_cases hl : s.fLoadedCurrencies = true
    · rw [loadLoop_loaded now s [] hl] at hsome
      simp only [Option.some.injEq, Prod.mk.injEq] at hsome
      refine ⟨hsome.1 ▸ hl, 0, ?_⟩
      simp [hsome.2.symm, hsome.1]
    · simp [loadLoop, hl] at hsome
  | cons r rest ih =>
    intro s s2 evs hsome
    by_cases hl : s.fLoadedCurrencies = true
    · rw [loadLoop_loaded now s (r :: rest) hl] at hsome
      simp only [Option.some.injEq, Prod.mk.injEq] at hsome
      refine ⟨hsome.1 ▸ hl, 0, ?_⟩
      simp [hsome.2.symm, hsome.1]
    · simp only [loadLoop, hl, Bool.false_eq_true, if_false] at hsome
      by_cases h2 : (getCurrencies now s r).state.fLoadedCurrencies = true
      · simp only [h2, if_true] at hsome
        simp only [Option.some.injEq, Prod.mk.injEq] at hsome
        refine ⟨hsome.1 ▸ h2, 0, ?_⟩
        simp [hsome.2.symm, hsome.1]
      · simp only [h2, Bool.false_eq_true, if_false] at hsome
        cases hrec : loadLoop now (getCurrencies now s r).state rest with
        | none => rw [hrec] at hsome; simp at hsome
        | some pr =>
          rw [hrec] at hsome
          obtain ⟨s3, evs3⟩ := pr
          have hih := ih (getCurrencies now s r).state s3 evs3 hrec
          simp only [Option.some.injEq, Prod.mk.injEq] at hsome
          obtain ⟨hs3, hevs⟩ := hsome
          obtain ⟨hload3, n, hshape⟩ := hih
          refine ⟨hs3 ▸ hload3, n + 1, ?_⟩
          rw [← hevs, hshape, ← hs3]
          simp [List.replicate_succ]

/-- C6: a completed `load` emits, after its retry sleeps (5000ms between
iterations that left the loaded flag false), the `currency-loaded` event
carrying the currency cache and then the `price-update` event — each exactly
once, in that order — and terminates with the loaded flag true; when the
loaded flag is already set on entry (as when the oracle starts disabled), it
resolves immediately with exactly those two emissions and no sleep. -/
theorem C6_load_events (now : Int) (s s2 : OracleState)
    (script : List (Fetched CurrenciesResponse)) (evs : List LoadEvent)
    (hsome : loadLoop now s script = some (s2, evs)) :
    s2.fLoadedCurrencies = true ∧
    (∃ n, evs = List.replicate n (LoadEvent.sleptMs 5000) ++
      [LoadEvent.currencyLoaded s2.mapCurrencies, LoadEvent.priceUpdate]) ∧
    (s.fLoadedCurrencies = true →
      s2 = s ∧
      evs = [LoadEvent.currencyLoaded s.mapCurrencies, LoadEvent.priceUpdate]) := by
  have hshape := loadLoop_shape now script s s2 evs hsome
  refine ⟨hshape.1, hshape.2, ?_⟩
  intro hl
  rw [loadLoop_loaded now s script hl] at hsome
  simp only [Option.some.injEq, Prod.mk.injEq] at hsome
  exact ⟨hsome.1.symm, hsome.2.symm⟩

/-- Witness for C6: a disabled-at-construction oracle completes `load` with
no sleeps and exactly the two emissions, in order. -/
theorem C6_witness :
    (oracleNew 0).fLoadedCurrencies = true ∧
    (oracleNew 0).mapCurrencies =
      [("usd", ⟨"usd", 0, 0⟩), ("eur", ⟨"eur", 0, 0⟩),
       ("gbp", ⟨"gbp", 0, 0⟩), ("btc", ⟨"btc", 0, 0⟩)] ∧
    (∃ n, [LoadEvent.currencyLoaded (oracleNew 0).mapCurrencies, LoadEvent.priceUpdate] =
      List.replicate n (LoadEvent.sleptMs 5000) ++
      [LoadEvent.currencyLoaded (oracleNew 0).mapCurrencies, LoadEvent.priceUpdate]) := by
  have hc := C6_load_events 0 (oracleNew 0) (oracleNew 0) []
    [LoadEvent.currencyLoaded (oracleNew 0).mapCurrencies, LoadEvent.priceUpdate] rfl
  exact ⟨hc.1, rfl, hc.2.1⟩

theorem asyncIntervalTrace_not_active (cb : Nat → Except String Unit)
    (timeOut cbDur ct fuel k t : Nat) (h : ¬ t < ct) :
    asyncIntervalTrace cb timeOut cbDur (some ct) fuel k t = [] := by
  cases fuel <;> simp [asyncIntervalTrace, activeAt, h]

theorem asyncIntervalTrace_length_none (cb : Nat → Except String Unit)
    (timeOut cbDur : Nat) (fuel : Nat) : ∀ k t,
    (asyncIntervalTrace cb timeOut cbDur none fuel k t).length = fuel := by
  induction fuel with
  | zero => intro k t; rfl
  | succ n ih => intro k t; simp [asyncIntervalTrace, activeAt, ih]

theorem asyncIntervalTrace_errors_logged (cb : Nat → Except String Unit)
    (timeOut cbDur : Nat) (clearTime : Option Nat)
    (hthrow : ∀ j, ∃ e, cb j = Except.error e) (fuel : Nat) : ∀ k t,
    ∀ p ∈ asyncIntervalTrace cb timeOut cbDur clearTime fuel k t,
      p.2.isSome = true := by
  induction fuel with
  | zero => intro k t p hp; simp [asyncIntervalTrace] at hp
  | succ n ih =>
    intro k t p hp
    by_cases h : activeAt clearTime t = true
    · simp only [asyncIntervalTrace, h, if_true, List.mem_cons] at hp
      rcases hp with rfl | hp
      · obtain ⟨e, he⟩ := hthrow k
        simp [runTick, he]
      · exact ih (k + 1) (t + cbDur + timeOut) p hp
    · simp [asyncIntervalTrace, h] at hp

theorem asyncIntervalTrace_times_lt (cb : Nat → Except String Unit)
    (timeOut cbDur ct : Nat) (fuel : Nat) : ∀ k t,
    ∀ p ∈ asyncIntervalTrace cb timeOut cbDur (some ct) fuel k t, p.1 < ct := by
  induction fuel with
  | zero => intro k t p hp; simp [asyncIntervalTrace] at hp
  | succ n ih =>
    intro k t p hp
    by_cases h : t < ct
    · have hact : activeAt (some ct) t = true := by simp [activeAt, h]
      simp only [asyncIntervalTrace, hact, if_true, List.mem_cons] at hp
      rcases hp with rfl | hp
      · exact h
      · exact ih (k + 1) (t + cbDur + timeOut) p hp
    · rw [asyncIntervalTrace_not_active cb timeOut cbDur ct (n + 1) k t h] at hp
      simp at hp

theorem asyncIntervalTrace_inflight_le_one (cb : Nat → Except String Unit)
    (timeOut cbDur ct : Nat) (fuel : Nat) : ∀ k t,
    ((asyncIntervalTrace cb timeOut cbDur (some ct) fuel k t).filter
      (fun p => decide (ct < p.1 + cbDur + timeOut))).length ≤ 1 := by
  induction fuel with
  | zero => intro k t; simp [asyncIntervalTrace]
  | succ n ih =>
    intro k t
    by_cases h : t < ct
    · have hact : activeAt (some ct) t = true := by simp [activeAt, h]
      simp only [asyncIntervalTrace, hact, if_true, List.filter_cons]
      by_cases hin : ct < t + cbDur + timeOut
      · have htail : asyncIntervalTrace cb timeOut cbDur (some ct) n (k + 1)
            (t + cbDur + timeOut) = [] :=
          asyncIntervalTrace_not_active cb timeOut cbDur ct n (k + 1)
            (t + cbDur + timeOut) (by omega)
        simp [hin, htail]
      · simpa [hin] using ih (k + 1) (t + cbDur + timeOut)
    · rw [asyncIntervalTrace_not_active cb timeOut cbDur ct (n + 1) k t h]
      simp

/-- C8: a callback that throws on every invocation never stops the loop —
with `fuel` iterations granted and no cancellation, exactly `fuel`
invocations occur (so ≥ 3 when `fuel` ≥ 3) and every one of them has its
error logged rather than propagated; after `clearInterval(0)` called at time
`tc` no invocation starts at or after `tc` and at most one in-flight
iteration finishes after `tc`; and `clearInterval(delay)` at `tc` turns the
active flag false only from `tc + delay` on — an iteration starting at any
earlier time still invokes the callback. -/
theorem C8_async_interval (cb : Nat → Except String Unit) (timeOut cbDur : Nat)
    (fuel k t tc d u : Nat)
    (hthrow : ∀ j, ∃ e, cb j = Except.error e) :
    (asyncIntervalTrace cb timeOut cbDur none fuel k t).length = fuel ∧
    (∀ p ∈ asyncIntervalTrace cb timeOut cbDur none fuel k t, p.2.isSome = true) ∧
    (∀ p ∈ asyncIntervalTrace cb timeOut cbDur (some (clearIntervalTime tc 0)) fuel k t,
      p.1 < tc) ∧
    ((asyncIntervalTrace cb timeOut cbDur (some (clearIntervalTime tc 0)) fuel k t).filter
      (fun p => decide (tc < p.1 + cbDur + timeOut))).length ≤ 1 ∧
    (activeAt (some (clearIntervalTime tc d)) u = true ↔ u < tc + d) ∧
    (u < tc + d →
      asyncIntervalTrace cb timeOut cbDur (some (clearIntervalTime tc d)) (fuel + 1) k u =
        (u, runTick cb k) ::
          asyncIntervalTrace cb timeOut cbDur (some (clearIntervalTime tc d)) fuel (k + 1)
            (u + cbDur + timeOut)) := by
  refine ⟨asyncIntervalTrace_length_none cb timeOut cbDur fuel k t,
    asyncIntervalTrace_errors_logged cb timeOut cbDur none hthrow fuel k t,
    ?_, ?_, ?_, ?_⟩
  · intro p hp
    have hlt := asyncIntervalTrace_times_lt cb timeOut cbDur
      (clearIntervalTime tc 0) fuel k t p hp
    simpa [clearIntervalTime] using hlt
  · have hle := asyncIntervalTrace_inflight_le_one cb timeOut cbDur
      (clearIntervalTime tc 0) fuel k t
    simpa [clearIntervalTime] using hle
  · simp [activeAt, clearIntervalTime]
  · intro hu
    simp [asyncIntervalTrace, activeAt, clearIntervalTime, hu]

/-- Witness for C8 with an always-throwing callback: 3 invocations occur with
3 iterations of fuel, and after `clearInterval(2)` at time 7 the flag is
still active at time 8. -/
theorem C8_witness :
    (asyncIntervalTrace (fun _ => Except.error "boom") 10 1 none 3 0 0).length = 3 ∧
    (activeAt (some (clearIntervalTime 7 2)) 8 = true ↔ 8 < 7 + 2) ∧
    ((asyncIntervalTrace (fun _ => Except.error "boom") 10 1
      (some (clearIntervalTime 7 0)) 5 0 0).filter
      (fun p => decide (7 < p.1 + 1 + 10))).length ≤ 1 := by
  have hc := C8_async_interval (fun _ => Except.error "boom") 10 1 3 0 0 7 2 8
    (fun _ => ⟨"boom", rfl⟩)
  have hc2 := C8_async_interval (fun _ => Except.error "boom") 10 1 5 0 0 7 0 8
    (fun _ => ⟨"boom", rfl⟩)
  exact ⟨hc.1, hc.2.2.2.2.1, hc2.2.2.2.1⟩
